import Mathlib

/-!
Verification of the category-based partition engine in
`src/dataopstoolbox/dataset_splitter.py`, shallowly embedded in Lean.

A tabular row is modelled as an association list from column names to
optional string cells (`none` is a null cell; with `infer_schema=False`
every polars column is read as text, so all cells are strings).  A lazy
frame is a list of rows; forcing a query (`collect`) is the identity,
since the embedding tracks the rows a query denotes.
-/

namespace DataOpsToolbox

/-- A row: column name to optional (nullable) text cell. -/
abbrev Row := List (String × Option String)

/-- Value of column `c` in row `r`; a missing column reads as null. -/
def getVal (r : Row) (c : String) : Option String := (r.lookup c).join

/-- Whether row `r` has a column named `c` (possibly with a null cell). -/
def hasCol (r : Row) (c : String) : Bool := (r.lookup c).isSome

/-- Embedding of `pl.col(c).fill_null(v)` applied by `with_columns`:
every null cell of column `c` is replaced by `v`; other columns and
non-null cells are untouched. -/
def fillRow (c v : String) (r : Row) : Row :=
  r.map (fun p => if p.1 = c then (p.1, some (p.2.getD v)) else p)

/-- Embedding of the null-policy branch of `process_file` (lines 192-197):
with a fill value, `query.with_columns(pl.col(c).fill_null(v))`;
without one, `query.filter(pl.col(c).is_not_null())`. -/
def applyNullPolicy (rows : List Row) (c : String) (fill : Option String) : List Row :=
  match fill with
  | some v => rows.map (fillRow c v)
  | none => rows.filter (fun r => (getVal r c).isSome)

/-- Embedding of `filtered_lazy_df.filter(pl.col(category_col).eq(category))`
in `save_category_files`: rows whose category cell equals `cat` (a null
cell compares unequal, as polars `eq` yields null which `filter` drops). -/
def filterCategory (rows : List Row) (c cat : String) : List Row :=
  rows.filter (fun r => getVal r c == some cat)

/-- Embedding of `select(pl.all().exclude(category_col))`: drop column `c`. -/
def dropColumn (c : String) (r : Row) : Row := r.filter (fun p => p.1 != c)

/-- Embedding of the `save_path` computation in `save_category_files`
(lines 46-50): `output_dir.joinpath(category, f"{file_name}.{output_format}")`
when `append_category_to_file_name` is false, else
`output_dir.joinpath(f"{file_name}_{category}.{output_format}")`.
A path is a list of segments. -/
def save_path (output_dir : List String) (category file_name output_format : String)
    (append_category_to_file_name : Bool) : List String :=
  if !append_category_to_file_name then
    output_dir ++ [category, file_name ++ "." ++ output_format]
  else
    output_dir ++ [file_name ++ "_" ++ category ++ "." ++ output_format]

/-- Embedding of `save_category_files` (lines 30-51): filter the frame to
one category, optionally drop the category column, collect, and pair the
realized rows with the target path the writer receives. -/
def save_category_files (category : String) (filtered_lazy_df : List Row)
    (category_col : String) (keep_category_col : Bool) (output_dir : List String)
    (file_name output_format : String) (append_category_to_file_name : Bool) :
    List String × List Row :=
  let category_df := filterCategory filtered_lazy_df category_col category
  let category_df := if keep_category_col then category_df
    else category_df.map (dropColumn category_col)
  (save_path output_dir category file_name output_format append_category_to_file_name,
    category_df)

/-- The serialization routines appearing as values of the `save_functions`
dict in `split_and_save_by_category` (lines 77-82). -/
inductive Writer where
  | write_csv
  | write_parquet
  | write_excel
deriving DecidableEq

/-- Embedding of the `save_functions` dict (lines 77-82).  Modelled from the
spec for the key type: the `OutputFileFormat` enum lives in the `config`
module, which is not under src; per the spec it is a string-valued enum with
members `csv|txt|parquet|xlsx`, so keys are embedded as those strings. -/
def save_functions : List (String × Writer) :=
  [("csv", Writer.write_csv), ("txt", Writer.write_csv),
   ("parquet", Writer.write_parquet), ("xlsx", Writer.write_excel)]

/-- Embedding of `save_functions.get(output_format, pl.DataFrame.write_csv)`
(line 83): a total lookup that falls back to the CSV writer. -/
def get_save_function (output_format : String) : Writer :=
  (save_functions.lookup output_format).getD Writer.write_csv

/-- Embedding of `_extract_unique_categories` (lines 109-125) as a relation:
`select(col.cast(Categorical)).unique().collect().to_list()`.  Polars
`unique()` is called without `maintain_order=True`, so the order of the
returned distinct values is unspecified; the result is characterised as any
list that enumerates each distinct value of the column exactly once, i.e.
any permutation of the deduplicated column values. -/
def unique_result (rows : List Row) (c : String) (out : List (Option String)) : Prop :=
  out.Perm ((rows.map (fun r => getVal r c)).dedup)

/-- First-appearance (order-of-discovery) deduplication of a value list;
this is the ordering the spec ascribes to the Category Resolver. -/
def discovery_order (vals : List (Option String)) : List (Option String) :=
  vals.foldl (fun acc v => if v ∈ acc then acc else acc ++ [v]) []

/-- One concrete execution of `_extract_unique_categories` (a particular
admissible ordering of the distinct values), used to run the pipeline on
concrete inputs: nulls are removed from the list by `filterMap id` only to
type the result as `List String`; post-null-policy frames have no nulls. -/
def categories_of (rows : List Row) (c : String) : List String :=
  ((rows.map (fun r => getVal r c)).dedup).filterMap id

/-- Embedding of `split_and_save_by_category` (lines 54-106): one
`save_category_files` task per category; the embedding records the
(path, rows) write each task performs. -/
def split_and_save_by_category (lazy_df : List Row) (categories : List String)
    (file_name category_col : String) (output_dir : List String)
    (keep_category_col : Bool) (output_format : String)
    (append_category_to_file_name : Bool) : List (List String × List Row) :=
  categories.map (fun category =>
    save_category_files category lazy_df category_col keep_category_col
      output_dir file_name output_format append_category_to_file_name)

/-- Embedding of `process_file` (lines 164-232): apply the null policy,
resolve categories, and fan out one write per category.  The category
resolver is a parameter because `unique()` fixes only the set of
categories, not their order; theorems constrain it via `unique_result`. -/
def process_file (resolver : List Row → String → List String) (query : List Row)
    (file_name : String) (output_dir : List String) (category_col : String)
    (make_dir keep_category_col : Bool) (output_format : String)
    (fill_null_value : Option String) : List (List String × List Row) :=
  let lazy_df := applyNullPolicy query category_col fill_null_value
  let categories := resolver lazy_df category_col
  split_and_save_by_category lazy_df categories file_name category_col
    output_dir keep_category_col output_format (!make_dir)

/-- Embedding of `validate_schema` (lines 128-142): the category column is
checked against the declared schema; `false` means skip the file. -/
def validate_schema (schema : List String) (category_col : String) : Bool :=
  schema.contains category_col

/-- The warning text of `validate_schema` (line 139), which names the
missing column and the file. -/
def missing_column_warning (category_col file_name : String) : String :=
  "Column " ++ category_col ++ " not found in " ++ file_name ++ " skipping the file...."

/-- A source file as the directory loop of `main` sees it: `none` content
means the file cannot be opened or parsed (the read raises when the frame
is forced); otherwise its declared schema and rows. -/
structure SourceFile where
  name : String
  content : Option (List String × List Row)
deriving DecidableEq

/-- Run options threaded from `main` into `process_file`. -/
structure Config where
  category_col : String
  output_dir : List String
  keep_category_col : Bool
  make_dir : Bool
  output_format : String
  fill_null_value : Option String

/-- Observable outcome of the directory branch of `main`: the writes
performed, the schema warnings, the error logged by the top-level
`except` handler (if any), and the files fully processed. -/
structure BatchResult where
  outputs : List (List String × List Row)
  warnings : List String
  errorLog : Option String
  processed : List String
deriving DecidableEq

/-- Embedding of the directory branch of `main` (lines 303-335): files are
processed sequentially; a schema-invalid file is skipped with a warning and
the loop continues; an unreadable file raises, and because the single
`try/except` wraps the whole `for` loop (lines 277, 334-335), the exception
aborts the loop: the error is logged and no later file is touched. -/
def main_dir (resolver : List Row → String → List String) (cfg : Config) :
    List SourceFile → BatchResult
  | [] => ⟨[], [], none, []⟩
  | ⟨name, none⟩ :: _ => ⟨[], [], some name, []⟩
  | ⟨name, some (schema, rows)⟩ :: rest =>
    if validate_schema schema cfg.category_col then
      let outs := process_file resolver rows name cfg.output_dir cfg.category_col
        cfg.make_dir cfg.keep_category_col cfg.output_format cfg.fill_null_value
      let r := main_dir resolver cfg rest
      ⟨outs ++ r.outputs, r.warnings, r.errorLog, name :: r.processed⟩
    else
      let r := main_dir resolver cfg rest
      ⟨r.outputs, missing_column_warning cfg.category_col name :: r.warnings,
        r.errorLog, r.processed⟩

/-- Concrete frame used to exercise the pipeline: two categorised rows and
one row whose category cell is null. -/
def exRows : List Row :=
  [[("k", some "a"), ("x", some "1")],
   [("k", some "b"), ("x", some "2")],
   [("k", none), ("x", some "3")]]

/-- Concrete two-row frame with two distinct categories. -/
def exPair : List Row := [[("k", some "a")], [("k", some "b")]]

/-- A readable source file whose schema has the category column `k`. -/
def goodFile : SourceFile := ⟨"good", some (["k"], [[("k", some "a")]])⟩

/-- A source file that cannot be opened or parsed. -/
def badFile : SourceFile := ⟨"bad", none⟩

/-- A readable source file whose schema lacks the category column `k`. -/
def noColFile : SourceFile := ⟨"nocol", some (["z"], [[("z", some "1")]])⟩

/-- A concrete run configuration partitioning by column `k`. -/
def cfg0 : Config := ⟨"k", ["out"], false, false, "csv", none⟩

/-- C8: the Partition Writer derives `output_dir/<category>/<basename>.<ext>`
in subdirectory mode (`make_dir` true, so `append_category_to_file_name`
is passed as its negation, false) and
`output_dir/<basename>_<category>.<ext>` in flat mode (`make_dir` false);
exactly one of the two shapes is produced per run, selected by `make_dir`,
and the category value appears verbatim. -/
theorem save_path_modes (d : List String) (category file_name output_format : String)
    (make_dir : Bool) :
    save_path d category file_name output_format (!make_dir) =
      if make_dir then d ++ [category, file_name ++ "." ++ output_format]
      else d ++ [file_name ++ "_" ++ category ++ "." ++ output_format] := by
  cases make_dir <;> simp [save_path]

/-- C10: the format registry maps `txt` and `csv` to the same writer
function (`pl.DataFrame.write_csv`), so for every realized table, target
path and delimiter option the invoked routine, hence its output, is
identical for the two formats. -/
theorem txt_csv_same_writer :
    get_save_function "txt" = get_save_function "csv" ∧
    get_save_function "txt" = Writer.write_csv := by
  constructor <;> rfl

/-- C4 counterexample: looking up the unknown output-format identifier
`json` does not fail at all: `json` is not a key of the registry, yet the
lookup yields the CSV writer via the `.get` default, so no
`UnsupportedFormatError` (which exists nowhere in the code) can be raised. -/
theorem unknown_format_no_error_cex :
    save_functions.lookup "json" = none ∧
    get_save_function "json" = Writer.write_csv := by
  constructor <;> rfl

/-- C4 amended: looking up an output-format identifier absent from the
registry silently falls back to the CSV writer; the lookup is total and
never raises.  (It does still happen at line 83, before any partition task
is submitted.) -/
theorem unknown_format_fallback (output_format : String)
    (h : save_functions.lookup output_format = none) :
    get_save_function output_format = Writer.write_csv := by
  unfold get_save_function
  rw [h]
  rfl

/-- Witness for C4 amended at the concrete unknown identifier `json`. -/
theorem unknown_format_fallback_witness :
    save_functions.lookup "json" = none ∧ get_save_function "json" = Writer.write_csv :=
  ⟨by rfl, unknown_format_fallback "json" (by rfl)⟩

/-- Membership in a category partition: exactly the rows of the frame whose
category cell equals the partition's category value. -/
lemma mem_filterCategory {rows : List Row} {c cat : String} {r : Row} :
    r ∈ filterCategory rows c cat ↔ r ∈ rows ∧ getVal r c = some cat := by
  simp [filterCategory, List.mem_filter]

/-- Filling nulls in the category column yields the sentinel where the cell
was null and the original value elsewhere, provided the column exists. -/
lemma getVal_fillRow (c v : String) (r : Row) (h : hasCol r c = true) :
    getVal (fillRow c v r) c = some ((getVal r c).getD v) := by
  induction r with
  | nil => simp [hasCol] at h
  | cons p r ih =>
    obtain ⟨k, val⟩ := p
    by_cases hp : k = c
    · subst hp
      simp [fillRow, getVal, List.lookup_cons]
    · have hbeq : (c == k) = false := by
        simp [Ne.symm hp]
      have hcol : hasCol r c = true := by
        simpa [hasCol, List.lookup_cons, hbeq] using h
      have := ih hcol
      simpa [fillRow, getVal, List.lookup_cons, hp, hbeq] using this

/-- C3: for distinct category values the two partitions written for them
share no rows, because each partition contains exactly the rows whose
category cell equals its own category value. -/
theorem partition_disjointness (rows : List Row) (c cat1 cat2 : String)
    (hne : cat1 ≠ cat2) :
    (∀ r ∈ filterCategory rows c cat1, r ∉ filterCategory rows c cat2) ∧
    (∀ cat : String, ∀ r : Row,
      r ∈ filterCategory rows c cat ↔ r ∈ rows ∧ getVal r c = some cat) := by
  constructor
  · intro r h1 h2
    rw [mem_filterCategory] at h1 h2
    exact hne (Option.some.inj (h1.2.symm.trans h2.2))
  · intro cat r
    exact mem_filterCategory

/-- Witness for C3 on the concrete two-category frame `exPair`. -/
theorem partition_disjointness_witness :
    ("a" : String) ≠ "b" ∧
    ((∀ r ∈ filterCategory exPair "k" "a", r ∉ filterCategory exPair "k" "b") ∧
     (∀ cat : String, ∀ r : Row,
       r ∈ filterCategory exPair "k" cat ↔ r ∈ exPair ∧ getVal r "k" = some cat)) :=
  ⟨by decide, partition_disjointness exPair "k" "a" "b" (by decide)⟩

/-- C2: the null policy.  With a sentinel (`Fill`): no rows are dropped,
every null category cell becomes the sentinel while non-null cells are
preserved, and every originally-null-category row lands in the sentinel
partition.  Without one (`Skip`): any row whose category cell is null is
excluded from the post-policy frame and from every category partition. -/
theorem null_policy_correct (rows : List Row) (c v : String) :
    (applyNullPolicy rows c (some v)).length = rows.length ∧
    (∀ r ∈ rows, hasCol r c = true →
      getVal (fillRow c v r) c = some ((getVal r c).getD v)) ∧
    (∀ r ∈ rows, hasCol r c = true → getVal r c = none →
      fillRow c v r ∈ filterCategory (applyNullPolicy rows c (some v)) c v) ∧
    (∀ r : Row, getVal r c = none →
      r ∉ applyNullPolicy rows c none ∧
      ∀ cat : String, r ∉ filterCategory (applyNullPolicy rows c none) c cat) := by
  refine ⟨by simp [applyNullPolicy], ?_, ?_, ?_⟩
  · intro r _ hc
    exact getVal_fillRow c v r hc
  · intro r hr hc hnull
    rw [mem_filterCategory]
    constructor
    · exact List.mem_map_of_mem _ hr
    · rw [getVal_fillRow c v r hc, hnull]
      rfl
  · intro r hnull
    constructor
    · intro hmem
      have := (List.mem_filter.mp hmem).2
      rw [hnull] at this
      simp at this
    · intro cat hmem
      have := (mem_filterCategory.mp hmem).2
      rw [hnull] at this
      exact Option.noConfusion this

/-- Witness for C2 on `exRows` (its third row has a null category cell)
with sentinel `U`. -/
theorem null_policy_correct_witness :
    (applyNullPolicy exRows "k" (some "U")).length = exRows.length ∧
    ([("k", (none : Option String)), ("x", some "3")] ∈ exRows ∧
      hasCol [("k", (none : Option String)), ("x", some "3")] "k" = true ∧
      getVal [("k", (none : Option String)), ("x", some "3")] "k" = none) ∧
    fillRow "k" "U" [("k", (none : Option String)), ("x", some "3")] ∈
      filterCategory (applyNullPolicy exRows "k" (some "U")) "k" "U" ∧
    [("k", (none : Option String)), ("x", some "3")] ∉ applyNullPolicy exRows "k" none ∧
    [("k", (none : Option String)), ("x", some "3")] ∉
      filterCategory (applyNullPolicy exRows "k" none) "k" "a" := by
  refine ⟨(null_policy_correct exRows "k" "U").1, ⟨by decide, by decide, by decide⟩,
    (null_policy_correct exRows "k" "U").2.2.1 _ (by decide) (by decide) (by decide),
    ((null_policy_correct exRows "k" "U").2.2.2 _ (by decide)).1,
    ((null_policy_correct exRows "k" "U").2.2.2 _ (by decide)).2 "a"⟩

/-- Every row surviving the null policy has a non-null category cell,
provided every input row has the category column (the schema gate). -/
lemma getVal_isSome_of_mem_applyNullPolicy {rows : List Row} {c : String}
    {fill : Option String} (hcol : ∀ r ∈ rows, hasCol r c = true) :
    ∀ r ∈ applyNullPolicy rows c fill, ∃ w, getVal r c = some w := by
  intro r hr
  cases fill with
  | some v =>
    simp only [applyNullPolicy, List.mem_map] at hr
    obtain ⟨r0, hr0, rfl⟩ := hr
    exact ⟨(getVal r0 c).getD v, getVal_fillRow c v r0 (hcol r0 hr0)⟩
  | none =>
    simp only [applyNullPolicy, List.mem_filter] at hr
    exact Option.isSome_iff_exists.mp hr.2

/-- Partitioning a frame by a duplicate-free list of keys covering every
row reproduces the frame exactly, up to order: no row duplicated, none
lost. -/
lemma flatten_filterCategory_perm (c : String) :
    ∀ (ks : List String) (L : List Row), ks.Nodup →
      (∀ r ∈ L, ∃ w, getVal r c = some w ∧ w ∈ ks) →
      ((ks.map (fun k => filterCategory L c k)).flatten).Perm L := by
  intro ks
  induction ks with
  | nil =>
    intro L _ hL
    have hnil : L = [] := by
      cases L with
      | nil => rfl
      | cons a L =>
        obtain ⟨w, _, hw⟩ := hL a (by simp)
        exact absurd hw (by simp)
    subst hnil
    simp
  | cons k ks ih =>
    intro L hnd hL
    have hknotin : k ∉ ks := (List.nodup_cons.mp hnd).1
    have hndks : ks.Nodup := (List.nodup_cons.mp hnd).2
    set p : Row → Bool := fun r => getVal r c == some k with hp
    set L' := L.filter (fun r => !p r) with hL'
    have hfk : ∀ k' ∈ ks, filterCategory L c k' = filterCategory L' c k' := by
      intro k' hk'
      have hkk : k' ≠ k := fun h => hknotin (h ▸ hk')
      rw [filterCategory, filterCategory, hL', List.filter_filter]
      apply List.filter_congr
      intro r _
      by_cases hq : (getVal r c == some k') = true
      · have hv : getVal r c = some k' := by simpa using hq
        have hpr : p r = false := by simp [hp, hv, hkk]
        simp [hq, hpr]
      · have hqf : (getVal r c == some k') = false := by
          simpa using hq
        simp [hqf]
    have hL'hyp : ∀ r ∈ L', ∃ w, getVal r c = some w ∧ w ∈ ks := by
      intro r hr
      have hrL : r ∈ L := (List.mem_filter.mp hr).1
      have hnp : (!p r) = true := (List.mem_filter.mp hr).2
      obtain ⟨w, hw, hwk⟩ := hL r hrL
      refine ⟨w, hw, ?_⟩
      rcases List.mem_cons.mp hwk with h | h
      · exfalso
        have hpr : p r = true := by simp [hp, hw, h]
        rw [hpr] at hnp
        simp at hnp
      · exact h
    have hperm := ih L' hndks hL'hyp
    have hmapeq : ks.map (fun k' => filterCategory L c k') =
        ks.map (fun k' => filterCategory L' c k') :=
      List.map_congr_left hfk
    have hfc : filterCategory L c k = L.filter p := rfl
    simp only [List.map_cons, List.flatten_cons, hmapeq]
    refine List.Perm.trans (List.Perm.append_left _ hperm) ?_
    rw [hfc, hL']
    exact List.filter_append_perm p L

/-- C1: the writes of one file cover the post-null-policy frame exactly.
For any category list an execution of `unique` can return, the
concatenation of the per-category partitions (with the category column
retained, i.e. the written rows with the category restored) is a
permutation of the frame after null-policy application: each partition is
by construction exactly the rows holding its category value, no row is
duplicated and none is lost.  The schema-gate hypothesis records that
every row has the category column. -/
theorem split_completeness (rows : List Row) (c : String) (fill : Option String)
    (cats : List String)
    (hcol : ∀ r ∈ rows, hasCol r c = true)
    (hcats : unique_result (applyNullPolicy rows c fill) c (cats.map some)) :
    ((cats.map (fun cat => filterCategory (applyNullPolicy rows c fill) c cat)).flatten).Perm
      (applyNullPolicy rows c fill) := by
  unfold unique_result at hcats
  have hnodup : cats.Nodup :=
    (hcats.nodup_iff.mpr (List.nodup_dedup _)).of_map some
  apply flatten_filterCategory_perm c cats _ hnodup
  intro r hr
  obtain ⟨w, hw⟩ := getVal_isSome_of_mem_applyNullPolicy hcol r hr
  refine ⟨w, hw, ?_⟩
  have h1 : some w ∈ (applyNullPolicy rows c fill).map (fun r => getVal r c) :=
    hw ▸ List.mem_map_of_mem _ hr
  have h2 := List.mem_dedup.mpr h1
  have h3 : some w ∈ cats.map some := hcats.mem_iff.mpr h2
  simpa using h3

/-- Witness for C1 on `exRows` with the `Skip` policy and the category
list `[a, b]`. -/
theorem split_completeness_witness :
    (∀ r ∈ exRows, hasCol r "k" = true) ∧
    unique_result (applyNullPolicy exRows "k" none) "k" (["a", "b"].map some) ∧
    ((["a", "b"].map
        (fun cat => filterCategory (applyNullPolicy exRows "k" none) "k" cat)).flatten).Perm
      (applyNullPolicy exRows "k" none) :=
  ⟨by decide, by unfold unique_result; decide,
    split_completeness exRows "k" none ["a", "b"] (by decide)
      (by unfold unique_result; decide)⟩

/-- C5 counterexample: in directory-batch mode an unreadable file is not
merely skipped.  On the concrete batch `[badFile, goodFile]` the run ends
at `badFile` with the error logged, no file is processed and no output is
written, although `goodFile` alone is processed fine — so the batch does
not continue with the subsequent files, contradicting the claim. -/
theorem unreadable_stops_batch_cex :
    (main_dir categories_of cfg0 [badFile, goodFile]).processed = [] ∧
    (main_dir categories_of cfg0 [badFile, goodFile]).outputs = [] ∧
    (main_dir categories_of cfg0 [badFile, goodFile]).errorLog = some "bad" ∧
    (main_dir categories_of cfg0 [goodFile]).processed = ["good"] := by
  refine ⟨by decide, by decide, by decide, by decide⟩

/-- C5 amended: a file that cannot be opened or parsed raises, and since
the single `try/except` of `main` wraps the whole directory loop, the
exception aborts the batch: the error is logged, and neither the failing
file nor any subsequent file produces output or is processed. -/
theorem unreadable_aborts_batch (resolver : List Row → String → List String)
    (cfg : Config) (f : SourceFile) (rest : List SourceFile)
    (h : f.content = none) :
    main_dir resolver cfg (f :: rest) = ⟨[], [], some f.name, []⟩ := by
  obtain ⟨nm, cont⟩ := f
  have h2 : cont = none := h
  subst h2
  rfl

/-- Witness for C5 amended on the concrete batch `[badFile, goodFile]`. -/
theorem unreadable_aborts_batch_witness :
    badFile.content = none ∧
    main_dir categories_of cfg0 [badFile, goodFile] = ⟨[], [], some badFile.name, []⟩ :=
  ⟨by decide, unreadable_aborts_batch categories_of cfg0 badFile [goodFile] (by decide)⟩

/-- C6: a readable file whose schema lacks the category column is skipped
whole: the batch outcome is exactly that of the remaining files, except
for one added warning naming the missing column and the file; in
particular the file contributes zero outputs and the batch continues. -/
theorem schema_gate_skips_file (resolver : List Row → String → List String)
    (cfg : Config) (name : String) (schema : List String) (rows : List Row)
    (rest : List SourceFile)
    (h : validate_schema schema cfg.category_col = false) :
    main_dir resolver cfg (⟨name, some (schema, rows)⟩ :: rest) =
      { outputs := (main_dir resolver cfg rest).outputs,
        warnings := missing_column_warning cfg.category_col name ::
          (main_dir resolver cfg rest).warnings,
        errorLog := (main_dir resolver cfg rest).errorLog,
        processed := (main_dir resolver cfg rest).processed } := by
  show (if validate_schema schema cfg.category_col then _ else _) = _
  rw [h]
  simp

/-- Witness for C6: `noColFile` (schema `[z]`, no column `k`) followed by
`goodFile`; the warning names the column and the file, and `goodFile` is
still processed. -/
theorem schema_gate_skips_file_witness :
    validate_schema ["z"] cfg0.category_col = false ∧
    main_dir categories_of cfg0 [⟨"nocol", some (["z"], [[("z", some "1")]])⟩, goodFile] =
      { outputs := (main_dir categories_of cfg0 [goodFile]).outputs,
        warnings := [missing_column_warning cfg0.category_col "nocol"],
        errorLog := none,
        processed := ["good"] } := by
  refine ⟨by decide, ?_⟩
  have h := schema_gate_skips_file categories_of cfg0 "nocol" ["z"]
    [[("z", some "1")]] [goodFile] (by decide)
  rw [h]
  decide

/-- C7 counterexample: the Category Resolver does not return categories in
order of discovery.  Polars `unique()` is called without
`maintain_order=True`, so on the concrete frame `exPair` (values `a` then
`b`) the reversed list `[b, a]` is an admissible result of
`_extract_unique_categories`, yet it differs from the first-appearance
order. -/
theorem unique_not_discovery_order_cex :
    unique_result exPair "k" [some "b", some "a"] ∧
    [some "b", some "a"] ≠ discovery_order (exPair.map (fun r => getVal r "k")) := by
  constructor
  · unfold unique_result
    decide
  · decide

/-- C7 amended: the Category Resolver returns the deduplicated distinct
values of the category column, each exactly once, in an unspecified order
(any permutation of the distinct values), and returns the empty list
rather than an error when the frame has no rows after null-policy
filtering. -/
theorem unique_categories_set (rows : List Row) (c : String)
    (out : List (Option String)) (h : unique_result rows c out) :
    out.Nodup ∧
    (∀ w, w ∈ out ↔ w ∈ rows.map (fun r => getVal r c)) ∧
    (rows = [] → out = []) := by
  unfold unique_result at h
  refine ⟨h.nodup_iff.mpr (List.nodup_dedup _),
    fun w => h.mem_iff.trans List.mem_dedup, ?_⟩
  intro hr
  subst hr
  simpa using h

/-- Witness for C7 amended on `exPair` with the reversed result. -/
theorem unique_categories_set_witness :
    unique_result exPair "k" [some "b", some "a"] ∧
    ([some "b", some "a"] : List (Option String)).Nodup ∧
    (∀ w, w ∈ ([some "b", some "a"] : List (Option String)) ↔
      w ∈ exPair.map (fun r => getVal r "k")) ∧
    (exPair = [] → ([some "b", some "a"] : List (Option String)) = []) := by
  have h0 : unique_result exPair "k" [some "b", some "a"] := by
    unfold unique_result
    decide
  exact ⟨h0, (unique_categories_set exPair "k" _ h0).1,
    (unique_categories_set exPair "k" _ h0).2.1,
    (unique_categories_set exPair "k" _ h0).2.2⟩

end DataOpsToolbox
